import Mathlib

/-!
Shallow embedding of the job-hunter-command-centre pipeline
(budget extraction, ICP scoring, pain-point extraction, campaign
orchestration and the deduplicating Notion store), together with
theorems settling the specification claims about it.

Python strings are modelled as Lean `String`/`List Char`; Python `in`
on strings is list-infix; floats are modelled as `ℚ`; `round(x, 1)` is
round-half-to-even at one decimal; `None` is `Option.none`; exceptions
are `Except`.
-/

/-- Does `hay` start with `needle`? -/
def startsWithL : List Char → List Char → Bool
  | [], _ => true
  | _ :: _, [] => false
  | a :: as, b :: bs => a = b && startsWithL as bs

/-- Is `needle` a contiguous substring of `hay`? -/
def containsSub (needle : List Char) : List Char → Bool
  | [] => needle.isEmpty
  | h :: t => startsWithL needle (h :: t) || containsSub needle t

/-- Python `needle in hay` on strings. -/
def substrIn (needle hay : String) : Bool :=
  containsSub needle.toList hay.toList

/-- Python `s.lower()` at character-list level. -/
def strLower (s : String) : List Char :=
  s.toList.map Char.toLower

def listStr (cs : List Char) : String := String.mk cs

/-- Greedy run of ASCII digits (regex `\d*` split into matched/rest). -/
def takeDigits : List Char → List Char × List Char
  | [] => ([], [])
  | c :: cs =>
    if c.isDigit then
      let r := takeDigits cs
      (c :: r.1, r.2)
    else ([], c :: cs)

/-- Regex `\d+`: at least one digit, greedy. -/
def digits1 (cs : List Char) : Option (List Char × List Char) :=
  match takeDigits cs with
  | ([], _) => none
  | (d, r) => some (d, r)

/-- Regex `\s*`: skip whitespace greedily. -/
def skipWs : List Char → List Char
  | [] => []
  | c :: cs => if c.isWhitespace then skipWs cs else c :: cs

/-- Match a literal string at the head; return the rest on success. -/
def lit : List Char → List Char → Option (List Char)
  | [], cs => some cs
  | _, [] => none
  | p :: ps, c :: cs => if c = p then lit ps cs else none

/-- Regex `\d+(?:,\d+)?(?:\.\d+)?` (the number group of the RSS budget
patterns), returning (matched characters, rest). -/
def numGroup (cs : List Char) : Option (List Char × List Char) :=
  match digits1 cs with
  | none => none
  | some (d, r) =>
    let s1 : List Char × List Char :=
      match r with
      | ',' :: r2 =>
        match digits1 r2 with
        | some (d2, r3) => (d ++ ',' :: d2, r3)
        | none => (d, ',' :: r2)
      | _ => (d, r)
    match s1 with
    | (g, '.' :: r2) =>
      match digits1 r2 with
      | some (d2, r3) => some (g ++ '.' :: d2, r3)
      | none => some (g, '.' :: r2)
    | _ => some s1

/-- `re.search`: try the matcher at every start position, leftmost first. -/
def searchPat {α : Type} (m : List Char → Option α) : List Char → Option α
  | [] => m []
  | c :: cs =>
    match m (c :: cs) with
    | some r => some r
    | none => searchPat m cs

def digitsVal (cs : List Char) : ℕ :=
  cs.foldl (fun a c => a * 10 + (c.toNat - 48)) 0

/-- Split a number group at the decimal point. -/
def splitDot : List Char → List Char × List Char
  | [] => ([], [])
  | c :: cs =>
    if c = '.' then ([], cs)
    else
      let r := splitDot cs
      (c :: r.1, r.2)

/-- Python `float(g.replace(',', ''))` on a matched number group:
integer part plus fractional part over the matching power of ten. -/
def parseNumQ (g : List Char) : ℚ :=
  let g2 := g.filter (fun c => c ≠ ',')
  let p := splitDot g2
  mkRat (digitsVal p.1 * 10 ^ p.2.length + digitsVal p.2) (10 ^ p.2.length)

/-!
## RSS budget extraction (`EnhancedUpworkRSS._extract_budget_info`)

The Python function tries five regex patterns in order (IGNORECASE) and
returns a dict for the first that `re.search` finds.  Matching here is
done on the lowercased text; the captured groups consist only of digits,
commas and dots, which lowercasing does not change.
-/

/-- Pattern `Budget:\s*\$(num)\s*-\s*\$(num)\s*/hr` at the head. -/
def matchHourlyRange (cs : List Char) : Option (List Char × List Char) := do
  let r1 ← lit "budget:".toList cs
  let r2 := skipWs r1
  let r3 ← lit "$".toList r2
  let (g1, r4) ← numGroup r3
  let r5 := skipWs r4
  let r6 ← lit "-".toList r5
  let r7 := skipWs r6
  let r8 ← lit "$".toList r7
  let (g2, r9) ← numGroup r8
  let r10 := skipWs r9
  let _ ← lit "/hr".toList r10
  pure (g1, g2)

/-- Pattern `Budget:\s*\$(num)\s*/hr` at the head. -/
def matchBudgetHourly (cs : List Char) : Option (List Char) := do
  let r1 ← lit "budget:".toList cs
  let r2 := skipWs r1
  let r3 ← lit "$".toList r2
  let (g, r4) ← numGroup r3
  let r5 := skipWs r4
  let _ ← lit "/hr".toList r5
  pure g

/-- Pattern `Budget:\s*\$(num)\s*(?:fixed|total)` at the head. -/
def matchBudgetFixed (cs : List Char) : Option (List Char) := do
  let r1 ← lit "budget:".toList cs
  let r2 := skipWs r1
  let r3 ← lit "$".toList r2
  let (g, r4) ← numGroup r3
  let r5 := skipWs r4
  let _ ← lit "fixed".toList r5 <|> lit "total".toList r5
  pure g

/-- Pattern `\$(num)\s*/\s*hr` at the head. -/
def matchDollarHr (cs : List Char) : Option (List Char) := do
  let r1 ← lit "$".toList cs
  let (g, r2) ← numGroup r1
  let r3 := skipWs r2
  let r4 ← lit "/".toList r3
  let r5 := skipWs r4
  let _ ← lit "hr".toList r5
  pure g

/-- Pattern `\$(num)\s*per\s*hour` at the head. -/
def matchPerHour (cs : List Char) : Option (List Char) := do
  let r1 ← lit "$".toList cs
  let (g, r2) ← numGroup r1
  let r3 := skipWs r2
  let r4 ← lit "per".toList r3
  let r5 := skipWs r4
  let _ ← lit "hour".toList r5
  pure g

/-- Result dict of `_extract_budget_info`. -/
structure BudgetInfo where
  budget_text : String
  budget_type : String
  min_rate : Option ℚ := none
  max_rate : Option ℚ := none
  amount : Option ℚ := none
deriving Repr, DecidableEq

/-- `EnhancedUpworkRSS._extract_budget_info`: first matching pattern wins. -/
def extract_budget_info (description : String) : BudgetInfo :=
  let cs := strLower description
  match searchPat matchHourlyRange cs with
  | some (g1, g2) =>
    { budget_text := "$" ++ listStr g1 ++ "-$" ++ listStr g2 ++ "/hr"
      budget_type := "hourly"
      min_rate := some (parseNumQ g1)
      max_rate := some (parseNumQ g2) }
  | none =>
  match searchPat matchBudgetHourly cs with
  | some g =>
    { budget_text := "$" ++ listStr g ++ "/hr"
      budget_type := "hourly"
      min_rate := some (parseNumQ g) }
  | none =>
  match searchPat matchBudgetFixed cs with
  | some g =>
    { budget_text := "$" ++ listStr g ++ " fixed"
      budget_type := "fixed"
      amount := some (parseNumQ g) }
  | none =>
  match searchPat matchDollarHr cs with
  | some g =>
    { budget_text := "$" ++ listStr g ++ "/hr"
      budget_type := "hourly"
      min_rate := some (parseNumQ g) }
  | none =>
  match searchPat matchPerHour cs with
  | some g =>
    { budget_text := "$" ++ listStr g ++ "/hr"
      budget_type := "hourly"
      min_rate := some (parseNumQ g) }
  | none =>
    { budget_text := "Not specified", budget_type := "unknown" }

/-!
## Job classifier (`advanced_job_classifier.py`)

`Job` models the fields of `job_fetcher.Job` that the classifier reads
(`title`, `description`, `budget`); the remaining dataclass fields do
not influence any embedded function.
-/

structure Job where
  id : String
  title : String
  description : String
  url : String
  budget : String
deriving Repr, DecidableEq

structure Profile where
  description : String
  keywords : List String
  pain_points : List String
  company_size : List String
  budget_range : ℚ × ℚ
  ideal_duration : List String
deriving Repr, DecidableEq

/-- The fixed `self.icp_profiles` catalog, in insertion order. -/
def icp_profiles : List (String × Profile) := [
  ("scaling_startup",
    { description := "20-50 person companies transitioning from founder-led chaos"
      keywords := ["startup", "scale", "growth", "systems", "processes", "operations", "founder"]
      pain_points := ["scaling", "operations", "systems", "processes", "team building"]
      company_size := ["20-50", "small team", "growing team"]
      budget_range := (75, 150)
      ideal_duration := ["months", "ongoing", "long-term"] }),
  ("operations_overhaul",
    { description := "Companies needing operational structure and efficiency"
      keywords := ["operations", "efficiency", "process improvement", "workflow", "automation"]
      pain_points := ["inefficient", "manual processes", "chaos", "disorganized"]
      company_size := ["medium", "growing", "established"]
      budget_range := (60, 120)
      ideal_duration := ["weeks", "months"] }),
  ("team_leadership",
    { description := "Leadership roles leveraging military experience"
      keywords := ["leadership", "team lead", "manager", "director", "military", "veteran"]
      pain_points := ["team management", "leadership", "structure", "discipline"]
      company_size := ["any"]
      budget_range := (80, 200)
      ideal_duration := ["months", "ongoing", "permanent"] }),
  ("sales_operations",
    { description := "Revenue operations roles leveraging HP/Capita sales experience"
      keywords := ["sales operations", "revenue operations", "crm", "sales process", "revenue", "sales director", "cmo", "cro", "cso"]
      pain_points := ["sales efficiency", "process", "data", "pipeline", "forecasting", "revenue growth"]
      company_size := ["medium", "large", "enterprise", "scaling"]
      budget_range := (75, 200)
      ideal_duration := ["months", "ongoing"] }),
  ("revenue_leadership",
    { description := "Fractional CMO/CRO/CSO roles combining military discipline with sales expertise"
      keywords := ["fractional cmo", "fractional cro", "fractional cso", "revenue operations", "sales transformation", "marketing operations"]
      pain_points := ["revenue growth", "sales performance", "marketing efficiency", "lead generation", "conversion optimization"]
      company_size := ["startup", "scaling", "medium"]
      budget_range := (100, 250)
      ideal_duration := ["months", "ongoing", "fractional"] }),
  ("strategic_consulting",
    { description := "High-level strategic work - GTM, business plans, pitch decks"
      keywords := ["go to market", "gtm strategy", "business plan", "pitch deck", "strategic planning", "market entry", "business strategy"]
      pain_points := ["market entry", "strategic direction", "investor readiness", "growth planning", "competitive positioning"]
      company_size := ["startup", "scaling", "established"]
      budget_range := (100, 300)
      ideal_duration := ["weeks", "months", "project-based"] }),
  ("crisis_management",
    { description := "Companies in chaos needing military-style order"
      keywords := ["crisis", "urgent", "chaos", "fix", "stabilize", "emergency"]
      pain_points := ["crisis", "urgent fix", "stabilization", "rapid improvement"]
      company_size := ["any"]
      budget_range := (100, 250)
      ideal_duration := ["weeks", "urgent"] })]

/-- `f"{job.title} {job.description}".lower()`. -/
def jobText (job : Job) : String :=
  String.mk (strLower (job.title ++ " " ++ job.description))

/-- Regex `\$(\d+)` at the head (first regex of `_extract_budget_number`). -/
def matchDollarInt (cs : List Char) : Option (List Char) := do
  let r ← lit "$".toList cs
  let (d, _) ← digits1 r
  pure d

/-- Regex `(?:,\d+)*` (fuelled by the remaining length, always enough). -/
def commaGroups : ℕ → List Char → List Char × List Char
  | 0, cs => ([], cs)
  | fuel + 1, cs =>
    match cs with
    | ',' :: r =>
      match takeDigits r with
      | ([], _) => ([], cs)
      | (d, rr) =>
        let t := commaGroups fuel rr
        (',' :: (d ++ t.1), t.2)
    | _ => ([], cs)

/-- Regex `\$(\d+(?:,\d+)*)` at the head. -/
def matchDollarCommaNum (cs : List Char) : Option (List Char) := do
  let r ← lit "$".toList cs
  let (d, rest) ← digits1 r
  let t := commaGroups rest.length rest
  pure (d ++ t.1)

/-- `AdvancedJobClassifier._extract_budget_number` (case-sensitive, as in
the source: no IGNORECASE flag here). -/
def extract_budget_number (budget_text : String) : Option ℚ :=
  let cs := budget_text.toList
  let hourly := searchPat matchDollarInt cs
  if hourly.isSome && (substrIn "/hr" budget_text || substrIn "hour" budget_text) then
    hourly.map (fun d => (digitsVal d : ℚ))
  else
    match searchPat matchDollarCommaNum cs with
    | some g => some (parseNumQ g)
    | none => none

def leadership_terms : List String := ["lead", "manager", "director", "head of", "senior"]

/-- `AdvancedJobClassifier._calculate_profile_score`.  Python floats are
modelled as `ℚ`; `1.5` is `mkRat 3 2`.  The `if job.budget and
self._extract_budget_number(job.budget)` guard is falsy for an empty
budget string, a failed extraction, and an extracted value `0.0`. -/
def calculate_profile_score (job : Job) (job_text : String) (profile : Profile) : ℚ :=
  let keyword_matches : ℕ := (profile.keywords.filter (fun k => substrIn k job_text)).length
  let s1 : ℚ := (keyword_matches : ℚ) * mkRat 3 2
  let pain_point_matches : ℕ := (profile.pain_points.filter (fun p => substrIn p job_text)).length
  let s2 : ℚ := s1 + (pain_point_matches : ℚ) * 2
  let s3 : ℚ := s2 + ((profile.company_size.filter (fun sz => substrIn sz job_text)).length : ℚ)
  let budget_add : ℚ :=
    if job.budget = "" then 0
    else
      match extract_budget_number job.budget with
      | none => 0
      | some n =>
        if n = 0 then 0
        else if profile.budget_range.1 ≤ n ∧ n ≤ profile.budget_range.2 then 2
        else if profile.budget_range.1 ≤ n then 1
        else 0
  let s4 := s3 + budget_add
  let s5 := s4 + (if profile.ideal_duration.any (fun d => substrIn d job_text) then 1 else 0)
  let s6 := s5 + (if substrIn "military" job_text || substrIn "veteran" job_text then 3 else 0)
  let s7 := s6 + (if leadership_terms.any (fun t => substrIn t job_text) then 1 else 0)
  s7

/-- `_analyze_budget_fit`; a `0.0` extraction is falsy, hence unclear. -/
def analyze_budget_fit (job : Job) : String :=
  if job.budget = "" then "Budget not specified"
  else
    match extract_budget_number job.budget with
    | none => "Budget unclear"
    | some n =>
      if n = 0 then "Budget unclear"
      else if 100 ≤ n then "Excellent budget fit"
      else if 60 ≤ n then "Good budget fit"
      else if 30 ≤ n then "Acceptable budget"
      else "Budget too low"

/-- The fixed pain-point label catalog of `_extract_pain_points`,
in insertion order. -/
def pain_point_keywords : List (String × List String) := [
  ("scaling issues", ["scale", "scaling", "growth", "growing pains"]),
  ("process problems", ["inefficient", "manual", "chaos", "disorganized", "process"]),
  ("team issues", ["team", "leadership", "management", "coordination"]),
  ("system problems", ["systems", "automation", "workflow", "tools"]),
  ("operational chaos", ["chaos", "crisis", "urgent", "fix", "stabilize"])]

/-- `AdvancedJobClassifier._extract_pain_points`: append each label whose
trigger list has a phrase occurring in the text, in catalog order. -/
def extract_pain_points (job_text : String) : List String :=
  pain_point_keywords.foldl
    (fun acc pk => if pk.2.any (fun k => substrIn k job_text) then acc ++ [pk.1] else acc)
    []

/-- `_check_hourly_rate`. -/
def check_hourly_rate (job : Job) : Bool :=
  if job.budget = "" then false
  else
    let jb := String.mk (strLower job.budget)
    match extract_budget_number job.budget with
    | some n =>
      if n ≠ 0 ∧ (substrIn "/hr" jb || substrIn "hour" jb) then
        if 50 ≤ n then true else false
      else false
    | none => false

/-- `_analyze_duration`. -/
def analyze_duration (job : Job) : String :=
  if job.description = "" then "Duration not specified"
  else
    let d := String.mk (strLower job.description)
    if ["ongoing", "long-term", "permanent", "months"].any (fun t => substrIn t d) then
      "Ideal duration (long-term)"
    else if ["weeks", "month", "3-6 months"].any (fun t => substrIn t d) then
      "Good duration (medium-term)"
    else if ["urgent", "asap", "quick", "days"].any (fun t => substrIn t d) then
      "Short-term (consider for high rate)"
    else "Duration unclear"

/-- `_generate_reasoning`. -/
def generate_reasoning (job : Job) (best_match : Option (String × Profile)) (score : ℚ) :
    String :=
  match best_match with
  | none => "No strong ICP match found. Consider if fits general consulting skills."
  | some np =>
    let r1 := "Best match: " ++ np.1 ++ " (" ++ np.2.description ++ "). "
    let r2 := r1 ++
      (if 7 ≤ score then
        "Strong alignment with your expertise and ICP. High priority for application."
      else if 5 ≤ score then
        "Good fit with some relevant elements. Worth investigating further."
      else "Limited fit. Consider only if other factors are compelling.")
    let job_text := jobText job
    let r3 := r2 ++
      (if substrIn "military" job_text || substrIn "veteran" job_text then
        " Military/veteran background explicitly valued." else "")
    r3 ++
      (if ["scaling", "growth", "operations"].any (fun t => substrIn t job_text) then
        " Clear operational challenges that match your experience." else "")

/-- The fit-level step of `score_job`: `>= 7` High, `>= 5` Medium, else Low. -/
def fitLevel (best_score : ℚ) : String :=
  if 7 ≤ best_score then "High"
  else if 5 ≤ best_score then "Medium"
  else "Low"

/-- The best-match selection loop of `score_job`: running
`(best_match, best_score)` accumulator, update on strict improvement. -/
def scanBest (job : Job) (job_text : String) :
    List (String × Profile) → Option (String × Profile) × ℚ → Option (String × Profile) × ℚ
  | [], acc => acc
  | np :: rest, acc =>
    let s := calculate_profile_score job job_text np.2
    scanBest job job_text rest (if acc.2 < s then (some np, s) else acc)

structure ICPScore where
  fit_level : String
  confidence : ℚ
  industry_match : String
  pain_points : List String
  budget_fit : String
  reasoning : String
  hourly_rate_match : Bool
  project_duration_fit : String
deriving Repr, DecidableEq

/-- `AdvancedJobClassifier.score_job`, over an explicit profile catalog
(the source instance always passes `icp_profiles`). -/
def score_job (catalog : List (String × Profile)) (job : Job) : ICPScore :=
  let job_text := jobText job
  let best := scanBest job job_text catalog (none, 0)
  { fit_level := fitLevel best.2
    confidence := min (best.2 / 10) 1
    industry_match :=
      match best.1 with
      | some np => np.1
      | none => "No strong match"
    pain_points := extract_pain_points job_text
    budget_fit := analyze_budget_fit job
    reasoning := generate_reasoning job best.1 best.2
    hourly_rate_match := check_hourly_rate job
    project_duration_fit := analyze_duration job }

/-!
## Deduplicating Notion store (`notion_logger.py`)

The store is the URL-keyed collection of pages behind the Notion API;
it is modelled as an association list `List (String × Entry)` in page
creation order.  `_find_existing_job` resolves to the first entry with
the given URL; `_update_existing_job` patches exactly that page.
Timestamps are abstract naturals.  Python `round(x, 1)` is
round-half-to-even at one decimal.
-/

/-- Round half to even (Python `round` on an exact value). -/
def roundHalfEven (q : ℚ) : ℤ :=
  let f := ⌊q⌋
  let r := q - (f : ℚ)
  if 2 * r < 1 then f
  else if 1 < 2 * r then f + 1
  else if f % 2 = 0 then f
  else f + 1

/-- Python `round(q, 1)`. -/
def pyRound1 (q : ℚ) : ℚ := mkRat (roundHalfEven (q * 10)) 10

/-- A Notion page for one job, with the properties the logger touches.
`none` models a property that has never been written. -/
structure Entry where
  job_title : String
  job_url : String
  budget : String
  campaign : String
  date_added : ℕ
  status : Option String
  confidence : Option ℚ
  fit_level : Option String
  industry_match : Option String
  last_seen : Option ℕ
deriving Repr, DecidableEq

/-- `_find_existing_job`: first page whose Job URL equals `url`. -/
def findEntry : List (String × Entry) → String → Option Entry
  | [], _ => none
  | (k, v) :: rest, url => if k = url then some v else findEntry rest url

/-- Patch the first page keyed `url` to `e` (Notion patches by page id;
`_find_existing_job` returns the first match). -/
def setFirst : List (String × Entry) → String → Entry → List (String × Entry)
  | [], _, _ => []
  | (k, v) :: rest, url, e =>
    if k = url then (k, e) :: rest else (k, v) :: setFirst rest url e

/-- `NotionLoggerDedup._create_new_job`: note it writes Date Added and
Status `Prospecting` but no Last Seen; `job.budget or "Not specified"`
is falsy for the empty string. -/
def create_new_job (job : Job) (icp : ICPScore) (campaign_name : String) (now : ℕ) : Entry :=
  { job_title := job.title.take 100
    job_url := job.url
    budget := if job.budget = "" then "Not specified" else job.budget
    campaign := campaign_name
    date_added := now
    status := some "Prospecting"
    confidence := some (pyRound1 (icp.confidence * 100))
    fit_level := some icp.fit_level
    industry_match := some (icp.industry_match.take 2000)
    last_seen := none }

/-- `NotionLoggerDedup._update_existing_job`.  Always refreshes Last Seen
and Campaign; writes Confidence/Fit Level when the stored confidence is
missing, `0.0` (falsy), or less than the incoming `icp.confidence`
(the source compares the raw 0–1 confidence against the stored 0–100
value); writes Status `Updated` when the stored status is missing or
still `Prospecting`. -/
def update_existing_job (e : Entry) (icp : ICPScore) (campaign_name : String) (now : ℕ) :
    Entry :=
  let e1 := { e with last_seen := some now, campaign := campaign_name }
  let e2 :=
    match e.confidence with
    | none =>
      { e1 with confidence := some (pyRound1 (icp.confidence * 100))
                fit_level := some icp.fit_level }
    | some c =>
      if c = 0 ∨ c < icp.confidence then
        { e1 with confidence := some (pyRound1 (icp.confidence * 100))
                  fit_level := some icp.fit_level }
      else e1
  match e.status with
  | none => { e2 with status := some "Updated" }
  | some s => if s = "Prospecting" then { e2 with status := some "Updated" } else e2

/-- `NotionLoggerDedup.log_job_opportunity`: the deduplicating upsert. -/
def log_job_opportunity (store : List (String × Entry)) (job : Job) (icp : ICPScore)
    (campaign_name : String) (now : ℕ) : List (String × Entry) :=
  match findEntry store job.url with
  | some e => setFirst store job.url (update_existing_job e icp campaign_name now)
  | none => store ++ [(job.url, create_new_job job icp campaign_name now)]

/-- A sequence of upserts, in order. -/
def upsertAll (store : List (String × Entry)) :
    List (Job × ICPScore × String × ℕ) → List (String × Entry)
  | [] => store
  | op :: rest => upsertAll (log_job_opportunity store op.1 op.2.1 op.2.2.1 op.2.2.2) rest

/-!
## Campaign orchestration (`upwork_rss_enhanced.py`)
-/

structure UpworkJob where
  id : String
  title : String
  description : String
  url : String
  budget : String
  budget_type : String
  skills : List String
  posted_time : String
  client_rating : Option ℚ
  client_spent : Option String
  campaign_score : ℚ
  military_relevance : ℚ
deriving Repr, DecidableEq

/-- `_deduplicate_jobs` loop: `seen` is the set of ids already kept. -/
def dedupAux (seen : List String) : List UpworkJob → List UpworkJob
  | [] => []
  | j :: rest =>
    if j.id ∈ seen then dedupAux seen rest
    else j :: dedupAux (j.id :: seen) rest

/-- `EnhancedUpworkRSS._deduplicate_jobs`. -/
def deduplicate_jobs (jobs : List UpworkJob) : List UpworkJob := dedupAux [] jobs

/-- The first job of a list carrying a given id, if any (specification
device for the dedup theorems). -/
def firstWithId : List UpworkJob → String → Option UpworkJob
  | [], _ => none
  | j :: rest, i => if j.id = i then some j else firstWithId rest i

/-- One iteration of the `search_jobs` loop over `campaigns.items()`:
a successful fetch extends `all_jobs`; an exception is caught, printed
(modelled by the failure log) and the loop continues. -/
def searchStep (acc : List UpworkJob × List String)
    (cf : String × Except String (List UpworkJob)) : List UpworkJob × List String :=
  match cf.2 with
  | Except.ok js => (acc.1 ++ js, acc.2)
  | Except.error msg => (acc.1, acc.2 ++ ["Campaign " ++ cf.1 ++ " failed: " ++ msg])

/-- `EnhancedUpworkRSS.search_jobs`, with each campaign's fetch outcome
given as data: returns the deduplicated batch and the failure log. -/
def search_jobs (fetches : List (String × Except String (List UpworkJob))) :
    List UpworkJob × List String :=
  let r := fetches.foldl searchStep ([], [])
  (deduplicate_jobs r.1, r.2)

structure SearchConfig where
  query : String
  budget_min : Option ℚ := none
  job_type : Option String := none
deriving Repr, DecidableEq

/-- The `campaigns` table of `run_upwork_campaign`, in insertion order. -/
def campaigns : List (String × List (String × SearchConfig)) := [
  ("full", [
    ("executive_suite", { query := "fractional COO OR interim COO", budget_min := some 80 }),
    ("strategic_consulting", { query := "business strategy consultant", budget_min := some 60 }),
    ("revenue_operations", { query := "revenue operations director", budget_min := some 70 }),
    ("coaching_mentoring", { query := "executive coaching OR business mentor", budget_min := some 50 })]),
  ("executive", [
    ("executive_suite", { query := "fractional COO OR interim CEO OR fractional CEO", budget_min := some 100 })]),
  ("strategic", [
    ("strategic_consulting", { query := "business strategy OR strategic consulting", budget_min := some 60 })]),
  ("quick", [
    ("high_value", { query := "fractional OR interim", budget_min := some 80 })])]

def findCampaign : List (String × List (String × SearchConfig)) → String →
    Option (List (String × SearchConfig))
  | [], _ => none
  | (k, v) :: rest, m => if k = m then some v else findCampaign rest m

/-- `campaigns.get(mode, campaigns['quick'])` in `run_upwork_campaign`. -/
def getCampaignConfig (mode : String) : List (String × SearchConfig) :=
  match findCampaign campaigns mode with
  | some c => c
  | none => (findCampaign campaigns "quick").getD []

/-!
## Sample values used by concrete witnesses and counterexamples
-/

def sampleJob : Job :=
  { id := "j1", title := "Fractional COO needed", description := "ops work"
    url := "https://www.upwork.com/jobs/~abc", budget := "$100/hr" }

def sampleIcp : ICPScore :=
  { fit_level := "Medium", confidence := mkRat 1 2, industry_match := "team_leadership"
    pain_points := [], budget_fit := "Excellent budget fit", reasoning := "r"
    hourly_rate_match := true, project_duration_fit := "Duration unclear" }

def sampleIcpBetter : ICPScore :=
  { sampleIcp with confidence := mkRat 9 10, fit_level := "High" }

def stickyEntry : Entry :=
  { job_title := "Fractional COO needed", job_url := "https://www.upwork.com/jobs/~abc"
    budget := "$100/hr", campaign := "c0", date_added := 0
    status := some "Proposal Submitted", confidence := some 50
    fit_level := some "High", industry_match := some "team_leadership", last_seen := none }

def profA : Profile :=
  { description := "A", keywords := ["alpha"], pain_points := [], company_size := []
    budget_range := (0, 0), ideal_duration := [] }

def profB : Profile :=
  { description := "B", keywords := [], pain_points := ["alpha"], company_size := []
    budget_range := (0, 0), ideal_duration := [] }

def wJob : Job :=
  { id := "w", title := "alpha", description := "", url := "wu", budget := "" }

/-!
## Theorems for the claims
-/

/-- C4 counterexample: on the bare text `"$80-$120/hr"` the extractor
does not produce the claimed hourly range min=80/max=120 (the range
pattern requires a `Budget:` prefix; the generic `\$(num)\s*/\s*hr`
pattern matches at `$120/hr`). -/
theorem C4_budget_counterexample :
    ¬ ((extract_budget_info "$80-$120/hr").min_rate = some 80 ∧
       (extract_budget_info "$80-$120/hr").max_rate = some 120) := by
  decide

/-- C4 amended: `"$80-$120/hr"` yields a single hourly rate 120 (text
`"$120/hr"`); `"Fixed price $5,000"` and `"negotiable"` both yield the
Unspecified budget; the range and fixed forms are produced only with the
`Budget:` prefix, as the last two conjuncts show. -/
theorem C4_budget_amended :
    extract_budget_info "$80-$120/hr" =
      { budget_text := "$120/hr", budget_type := "hourly", min_rate := some 120 } ∧
    extract_budget_info "Fixed price $5,000" =
      { budget_text := "Not specified", budget_type := "unknown" } ∧
    extract_budget_info "negotiable" =
      { budget_text := "Not specified", budget_type := "unknown" } ∧
    extract_budget_info "Budget: $80 - $120/hr" =
      { budget_text := "$80-$120/hr", budget_type := "hourly",
        min_rate := some 80, max_rate := some 120 } ∧
    extract_budget_info "Budget: $5,000 fixed" =
      { budget_text := "$5,000 fixed", budget_type := "fixed", amount := some 5000 } := by
  decide

/-- C6: the fit tier is the step function of the raw best score with
thresholds 7 (High) and 5 (Medium), including the boundary evaluations
7.0, 6.999, 5.0 and 4.999; and `score_job`'s `fit_level` field is
exactly this function of the selection loop's best score. -/
theorem C6_fit_tier_step (s : ℚ) :
    (7 ≤ s → fitLevel s = "High") ∧
    (5 ≤ s → s < 7 → fitLevel s = "Medium") ∧
    (s < 5 → fitLevel s = "Low") ∧
    fitLevel 7 = "High" ∧
    fitLevel (mkRat 6999 1000) = "Medium" ∧
    fitLevel 5 = "Medium" ∧
    fitLevel (mkRat 4999 1000) = "Low" ∧
    (∀ catalog job, (score_job catalog job).fit_level =
      fitLevel (scanBest job (jobText job) catalog (none, 0)).2) := by
  refine ⟨?_, ?_, ?_, by decide, by decide, by decide, by decide, fun catalog job => rfl⟩
  · intro h
    rw [fitLevel, if_pos h]
  · intro h5 h7
    rw [fitLevel, if_neg (not_le.mpr h7), if_pos h5]
  · intro h
    rw [fitLevel, if_neg (not_le.mpr (by linarith)), if_neg (not_le.mpr h)]

/-- C6 witness: the three tier branches at 8, 6 and 4. -/
theorem C6_fit_tier_step_witness :
    fitLevel 8 = "High" ∧ fitLevel 6 = "Medium" ∧ fitLevel 4 = "Low" :=
  ⟨(C6_fit_tier_step 8).1 (by decide),
   (C6_fit_tier_step 6).2.1 (by decide) (by decide),
   (C6_fit_tier_step 4).2.2.1 (by decide)⟩

/-- C7 counterexample: `coaching` is not a key of the campaign table, so
it does not map to its own configuration set; it resolves to the same
set as the designated default `quick`. -/
theorem C7_modes_counterexample :
    findCampaign campaigns "coaching" = none ∧
    getCampaignConfig "coaching" = getCampaignConfig "quick" := by
  decide

/-- C7 amended: the campaign mode vocabulary of the table is
`full`, `executive`, `strategic`, `quick`; each of these maps to its own
(pairwise distinct) fixed set of named search configurations, and every
other mode — including `coaching` — falls back to the `quick` set. -/
theorem C7_modes_amended (m : String) :
    campaigns.map Prod.fst = ["full", "executive", "strategic", "quick"] ∧
    (campaigns.map Prod.snd).Nodup ∧
    (∀ mode, mode ∈ ["full", "executive", "strategic", "quick"] →
      (findCampaign campaigns mode).isSome) ∧
    (m ∉ ["full", "executive", "strategic", "quick"] →
      getCampaignConfig m = (findCampaign campaigns "quick").getD []) := by
  refine ⟨by decide, by decide, by decide, ?_⟩
  intro h
  simp only [List.mem_cons, List.mem_singleton, not_or] at h
  obtain ⟨h1, h2, h3, h4, -⟩ := h
  rw [getCampaignConfig, campaigns, findCampaign, if_neg (Ne.symm h1), findCampaign,
    if_neg (Ne.symm h2), findCampaign, if_neg (Ne.symm h3), findCampaign,
    if_neg (Ne.symm h4), findCampaign]

/-- C7 witness: the fallback applied at the unknown mode `coaching`. -/
theorem C7_modes_witness :
    getCampaignConfig "coaching" = (findCampaign campaigns "quick").getD [] :=
  (C7_modes_amended "coaching").2.2.2 (by decide)

/-- The pain-point fold equals filter-then-project, for any accumulator. -/
theorem pain_fold_eq (text : String) (l : List (String × List String)) :
    ∀ acc : List String,
      l.foldl (fun acc pk => if pk.2.any (fun k => substrIn k text) then acc ++ [pk.1] else acc) acc
        = acc ++ (l.filter (fun pk => pk.2.any (fun k => substrIn k text))).map Prod.fst := by
  induction l with
  | nil => intro acc; simp
  | cons x xs ih =>
    intro acc
    rw [List.foldl_cons, List.filter_cons]
    by_cases h : (x.2.any fun k => substrIn k text) = true
    · rw [if_pos h, if_pos h, ih, List.map_cons, List.append_assoc, List.singleton_append]
    · rw [if_neg h, if_neg h, ih]

/-- C9: a canonical pain-point label is in the result exactly when one of
its trigger phrases occurs as a substring of the text, several labels may
fire at once, and the output is always in the fixed catalog order of
`pain_point_keywords` (a sublist of the catalog's label sequence); the
extractor is a pure function, so the output is identical across runs on
the same input. -/
theorem C9_pain_points (text label : String) :
    (label ∈ extract_pain_points text ↔
      ∃ kws, (label, kws) ∈ pain_point_keywords ∧ ∃ kw ∈ kws, substrIn kw text = true) ∧
    (extract_pain_points text).Sublist (pain_point_keywords.map Prod.fst) := by
  have he : extract_pain_points text =
      (pain_point_keywords.filter (fun pk => pk.2.any (fun k => substrIn k text))).map
        Prod.fst := by
    rw [extract_pain_points, pain_fold_eq text]
    simp
  constructor
  · rw [he]
    constructor
    · intro h
      obtain ⟨pk, hpk, hfst⟩ := List.mem_map.mp h
      obtain ⟨hmem, hany⟩ := List.mem_filter.mp hpk
      obtain ⟨kw, hkw, hsub⟩ := List.any_eq_true.mp hany
      exact ⟨pk.2, by rw [← hfst]; simpa using hmem, kw, hkw, hsub⟩
    · rintro ⟨kws, hmem, kw, hkw, hsub⟩
      refine List.mem_map.mpr ⟨(label, kws), List.mem_filter.mpr ⟨hmem, ?_⟩, rfl⟩
      exact List.any_eq_true.mpr ⟨kw, hkw, hsub⟩
  · rw [he]
    exact (List.filter_sublist _).map Prod.fst

/-- C9 witness: the label fires on a text containing one of its triggers. -/
theorem C9_pain_points_witness :
    "team issues" ∈ extract_pain_points "our team needs help" :=
  (C9_pain_points "our team needs help" "team issues").1.mpr
    ⟨["team", "leadership", "management", "coordination"], by decide, "team", by decide, by decide⟩

/-- The dedup loop keeps no id in `seen` and no id twice. -/
theorem dedupAux_nodup_aux (l : List UpworkJob) :
    ∀ seen : List String,
      ((dedupAux seen l).map (fun j => j.id)).Nodup ∧
      ∀ j ∈ dedupAux seen l, j.id ∉ seen := by
  induction l with
  | nil => intro seen; simp [dedupAux]
  | cons j rest ih =>
    intro seen
    by_cases h : j.id ∈ seen
    · simp only [dedupAux, if_pos h]
      exact ⟨(ih seen).1, fun x hx => (ih seen).2 x hx⟩
    · simp only [dedupAux, if_neg h]
      have hrest := ih (j.id :: seen)
      refine ⟨?_, ?_⟩
      · simp only [List.map_cons, List.nodup_cons]
        constructor
        · intro hcon
          obtain ⟨x, hx, hxid⟩ := List.mem_map.mp hcon
          exact hrest.2 x hx (by rw [hxid]; exact List.mem_cons_self _ _)
        · exact hrest.1
      · intro x hx
        rcases List.mem_cons.mp hx with hxe | hxm
        · rw [hxe]; exact h
        · exact fun hc => hrest.2 x hxm (List.mem_cons_of_mem _ hc)

/-- The dedup loop returns a sublist (kept jobs keep their order). -/
theorem dedupAux_sublist (l : List UpworkJob) :
    ∀ seen : List String, (dedupAux seen l).Sublist l := by
  induction l with
  | nil => intro seen; simp [dedupAux]
  | cons j rest ih =>
    intro seen
    by_cases h : j.id ∈ seen
    · simp only [dedupAux, if_pos h]
      exact (ih seen).cons j
    · simp only [dedupAux, if_neg h]
      exact (ih (j.id :: seen)).cons₂ j

/-- For an id not yet seen, the first kept job with that id is the first
job with that id in the input. -/
theorem dedupAux_find (i : String) (l : List UpworkJob) :
    ∀ seen : List String, i ∉ seen →
      firstWithId (dedupAux seen l) i = firstWithId l i := by
  induction l with
  | nil => intro seen _; simp [dedupAux]
  | cons j rest ih =>
    intro seen hi
    by_cases h : j.id ∈ seen
    · have hne : j.id ≠ i := fun hc => hi (hc ▸ h)
      simp only [dedupAux, if_pos h, firstWithId, if_neg hne]
      exact ih seen hi
    · simp only [dedupAux, if_neg h, firstWithId]
      by_cases hji : j.id = i
      · rw [if_pos hji, if_pos hji]
      · rw [if_neg hji, if_neg hji]
        exact ih (j.id :: seen) (by
          intro hc
          rcases List.mem_cons.mp hc with hce | hcm
          · exact hji hce.symm
          · exact hi hcm)

/-- C10: the deduplicated batch has pairwise-distinct job ids, is a
sublist of the input (relative order preserved), and for every id the
kept job is the first job with that id in discovery order; and the
multi-campaign search returns exactly the deduplicated concatenation of
the per-campaign results. -/
theorem C10_dedup (jobs : List UpworkJob)
    (fetches : List (String × Except String (List UpworkJob))) :
    ((deduplicate_jobs jobs).map (fun j => j.id)).Nodup ∧
    (deduplicate_jobs jobs).Sublist jobs ∧
    (∀ i, firstWithId (deduplicate_jobs jobs) i = firstWithId jobs i) ∧
    (search_jobs fetches).1 = deduplicate_jobs (fetches.foldl searchStep ([], [])).1 :=
  ⟨(dedupAux_nodup_aux jobs []).1,
   dedupAux_sublist jobs [],
   fun i => dedupAux_find i jobs [] (by simp),
   rfl⟩

/-- The `search_jobs` fold from any accumulator splits off that
accumulator componentwise. -/
theorem searchStep_foldl_split (l : List (String × Except String (List UpworkJob))) :
    ∀ a : List UpworkJob, ∀ b : List String,
      l.foldl searchStep (a, b) =
        (a ++ (l.foldl searchStep ([], [])).1, b ++ (l.foldl searchStep ([], [])).2) := by
  induction l with
  | nil => intro a b; simp
  | cons x xs ih =>
    intro a b
    match hx : x.2 with
    | Except.ok js =>
      simp only [List.foldl_cons, searchStep, hx, List.nil_append]
      rw [ih (a ++ js) b, ih js []]
      simp [List.append_assoc]
    | Except.error msg =>
      simp only [List.foldl_cons, searchStep, hx, List.nil_append]
      rw [ih a (b ++ ["Campaign " ++ x.1 ++ " failed: " ++ msg]),
        ih [] (["Campaign " ++ x.1 ++ " failed: " ++ msg])]
      simp [List.append_assoc]

/-- C8: when one named configuration's fetch throws, the batch result is
the same as if that configuration were absent (it contributes zero
listings and the other configurations' results are all present), the
failure is recorded in the log, and the batch is an ordinary total
result — no exception escapes the loop. -/
theorem C8_partial_failure (pre post : List (String × Except String (List UpworkJob)))
    (name msg : String) :
    (search_jobs (pre ++ (name, Except.error msg) :: post)).1 =
      (search_jobs (pre ++ post)).1 ∧
    ("Campaign " ++ name ++ " failed: " ++ msg) ∈
      (search_jobs (pre ++ (name, Except.error msg) :: post)).2 := by
  rcases hA : pre.foldl searchStep (([] : List UpworkJob), ([] : List String)) with ⟨A1, A2⟩
  rcases hP : post.foldl searchStep (([] : List UpworkJob), ([] : List String)) with ⟨P1, P2⟩
  have hL : (pre ++ (name, Except.error msg) :: post).foldl searchStep ([], [])
      = (A1 ++ P1, (A2 ++ ["Campaign " ++ name ++ " failed: " ++ msg]) ++ P2) := by
    rw [List.foldl_append, hA, List.foldl_cons]
    show post.foldl searchStep (A1, A2 ++ ["Campaign " ++ name ++ " failed: " ++ msg]) = _
    rw [searchStep_foldl_split post, hP]
  have hR : (pre ++ post).foldl searchStep ([], []) = (A1 ++ P1, A2 ++ P2) := by
    rw [List.foldl_append, hA, searchStep_foldl_split post, hP]
  constructor
  · show deduplicate_jobs ((pre ++ (name, Except.error msg) :: post).foldl searchStep ([], [])).1
      = deduplicate_jobs ((pre ++ post).foldl searchStep ([], [])).1
    rw [hL, hR]
  · show _ ∈ ((pre ++ (name, Except.error msg) :: post).foldl searchStep ([], [])).2
    rw [hL]
    simp

/-- Lookup distributes over append when the key is found on the left. -/
theorem findEntry_append_some (l1 l2 : List (String × Entry)) (url : String) (e : Entry)
    (h : findEntry l1 url = some e) : findEntry (l1 ++ l2) url = some e := by
  induction l1 with
  | nil => simp [findEntry] at h
  | cons p rest ih =>
    obtain ⟨k, v⟩ := p
    rw [List.cons_append, findEntry]
    rw [findEntry] at h
    by_cases hk : k = url
    · rw [if_pos hk] at h ⊢; exact h
    · rw [if_neg hk] at h ⊢; exact ih h

/-- Lookup falls through an append when the key is absent on the left. -/
theorem findEntry_append_none (l1 l2 : List (String × Entry)) (url : String)
    (h : findEntry l1 url = none) : findEntry (l1 ++ l2) url = findEntry l2 url := by
  induction l1 with
  | nil => simp
  | cons p rest ih =>
    obtain ⟨k, v⟩ := p
    rw [List.cons_append, findEntry]
    rw [findEntry] at h
    by_cases hk : k = url
    · rw [if_pos hk] at h; exact absurd h (by simp)
    · rw [if_neg hk] at h ⊢; exact ih h

/-- Patching the page found under `url` makes the lookup return it. -/
theorem findEntry_setFirst_self (l : List (String × Entry)) (url : String) (v x : Entry)
    (h : findEntry l url = some x) : findEntry (setFirst l url v) url = some v := by
  induction l with
  | nil => simp [findEntry] at h
  | cons p rest ih =>
    obtain ⟨k, w⟩ := p
    rw [findEntry] at h
    rw [setFirst]
    by_cases hk : k = url
    · rw [if_pos hk, findEntry, if_pos hk]
    · rw [if_neg hk] at h
      rw [if_neg hk, findEntry, if_neg hk]
      exact ih h

/-- Patching under a different key leaves a lookup unchanged. -/
theorem findEntry_setFirst_ne (l : List (String × Entry)) (url : String) (v : Entry)
    (u : String) (hne : u ≠ url) : findEntry (setFirst l url v) u = findEntry l u := by
  induction l with
  | nil => simp [setFirst]
  | cons p rest ih =>
    obtain ⟨k, w⟩ := p
    rw [setFirst]
    by_cases hk : k = url
    · rw [if_pos hk, findEntry, findEntry, if_neg (by rw [hk]; exact Ne.symm hne),
        if_neg (by rw [hk]; exact Ne.symm hne)]
    · rw [if_neg hk, findEntry, findEntry]
      by_cases hku : k = u
      · rw [if_pos hku, if_pos hku]
      · rw [if_neg hku, if_neg hku]
        exact ih

/-- Patching a page preserves the key sequence. -/
theorem map_fst_setFirst (l : List (String × Entry)) (url : String) (v : Entry) :
    (setFirst l url v).map Prod.fst = l.map Prod.fst := by
  induction l with
  | nil => simp [setFirst]
  | cons p rest ih =>
    obtain ⟨k, w⟩ := p
    rw [setFirst]
    by_cases hk : k = url
    · rw [if_pos hk]
      simp
    · rw [if_neg hk]
      simp [ih]

/-- A key that lookup misses is not among the stored keys. -/
theorem findEntry_none_notmem (l : List (String × Entry)) (url : String)
    (h : findEntry l url = none) : url ∉ l.map Prod.fst := by
  induction l with
  | nil => simp
  | cons p rest ih =>
    obtain ⟨k, v⟩ := p
    rw [findEntry] at h
    by_cases hk : k = url
    · rw [if_pos hk] at h
      exact absurd h (by simp)
    · rw [if_neg hk] at h
      simp only [List.map_cons, List.mem_cons, not_or]
      exact ⟨fun hc => hk hc.symm, ih h⟩

/-- When the existing status is set and not `Prospecting`, a rediscovery
merge leaves it untouched. -/
theorem update_status_preserved (e : Entry) (icp : ICPScore) (c : String) (n : ℕ)
    (s : String) (hs : e.status = some s) (h1 : s ≠ "Prospecting") :
    (update_existing_job e icp c n).status = e.status := by
  rw [update_existing_job]
  simp only [hs, if_neg h1]
  rcases hcf : e.confidence with - | cval
  · simp [hs]
  · by_cases hcond : cval = 0 ∨ cval < icp.confidence
    · simp [hcond, hs]
    · simp [hcond, hs]

/-- One upsert preserves a sticky status under the looked-up key. -/
theorem status_sticky_step (store : List (String × Entry)) (j : Job) (icp : ICPScore)
    (cname : String) (n : ℕ) (url : String) (e : Entry) (s : String)
    (hfind : findEntry store url = some e) (hs : e.status = some s)
    (h1 : s ≠ "Prospecting") :
    ∃ e2, findEntry (log_job_opportunity store j icp cname n) url = some e2 ∧
      e2.status = some s := by
  rw [log_job_opportunity]
  by_cases hurl : j.url = url
  · rw [hurl]
    simp only [hfind]
    refine ⟨update_existing_job e icp cname n,
      findEntry_setFirst_self store url _ e hfind, ?_⟩
    rw [update_status_preserved e icp cname n s hs h1, hs]
  · rcases hjf : findEntry store j.url with - | efound
    · simp only [hjf]
      exact ⟨e, findEntry_append_some store _ url e hfind, hs⟩
    · simp only [hjf]
      refine ⟨e, ?_, hs⟩
      rw [findEntry_setFirst_ne store j.url _ url (fun hc => hurl hc.symm), hfind]

/-- A sticky status survives any sequence of upserts. -/
theorem status_sticky_all (ops : List (Job × ICPScore × String × ℕ)) :
    ∀ (store : List (String × Entry)) (url : String) (e : Entry) (s : String),
      findEntry store url = some e → e.status = some s → s ≠ "Prospecting" →
      ∃ e2, findEntry (upsertAll store ops) url = some e2 ∧ e2.status = some s := by
  induction ops with
  | nil =>
    intro store url e s hfind hs _
    exact ⟨e, hfind, hs⟩
  | cons op rest ih =>
    intro store url e s hfind hs h1
    obtain ⟨e2, hf2, hs2⟩ :=
      status_sticky_step store op.1 op.2.1 op.2.2.1 op.2.2.2 url e s hfind hs h1
    rw [upsertAll]
    exact ih _ url e2 s hf2 hs2 h1

/-- C3: once a stored entry's status is any value other than
`Prospecting`/`Updated`, no sequence of upsert merges ever changes it;
and a merge writes the status field only when the entry has no status
yet or is still `Prospecting`. -/
theorem C3_status_stickiness (store : List (String × Entry))
    (ops : List (Job × ICPScore × String × ℕ)) (url : String) (e : Entry) (s : String)
    (hfind : findEntry store url = some e) (hs : e.status = some s)
    (h1 : s ≠ "Prospecting") (_h2 : s ≠ "Updated") :
    (∃ e2, findEntry (upsertAll store ops) url = some e2 ∧ e2.status = some s) ∧
    (∀ e3 icp c n, (update_existing_job e3 icp c n).status ≠ e3.status →
      (e3.status = none ∨ e3.status = some "Prospecting")) := by
  refine ⟨status_sticky_all ops store url e s hfind hs h1, ?_⟩
  intro e3 icp c n hne
  rcases hst : e3.status with - | s3
  · exact Or.inl rfl
  · by_cases hp : s3 = "Prospecting"
    · subst hp
      exact Or.inr rfl
    · exact absurd (update_status_preserved e3 icp c n s3 hst hp) hne

/-- C3 witness: an entry with status `Proposal Submitted` keeps it
through a rediscovery upsert of the same URL. -/
theorem C3_status_stickiness_witness :
    ∃ e2, findEntry (upsertAll [(sampleJob.url, stickyEntry)]
        [(sampleJob, sampleIcpBetter, "c2", 5)]) sampleJob.url = some e2 ∧
      e2.status = some "Proposal Submitted" :=
  (C3_status_stickiness [(sampleJob.url, stickyEntry)]
    [(sampleJob, sampleIcpBetter, "c2", 5)] sampleJob.url stickyEntry
    "Proposal Submitted" (by decide) rfl (by decide) (by decide)).1

unseal Rat.add Rat.mul Rat.sub in
/-- C2 counterexample: upserting the same `(identity, listing, score)`
twice does not leave all other fields unchanged — the second upsert
moves the status from `Prospecting` to `Updated`. -/
theorem C2_idempotent_counterexample :
    (findEntry (log_job_opportunity [] sampleJob sampleIcp "c" 0) sampleJob.url).map
        Entry.status = some (some "Prospecting") ∧
    (findEntry (log_job_opportunity (log_job_opportunity [] sampleJob sampleIcp "c" 0)
        sampleJob sampleIcp "c" 1) sampleJob.url).map Entry.status
      = some (some "Updated") := by
  decide

/-- A rediscovery merge on an entry whose stored campaign, confidence
and fit level already equal the incoming values, and whose status is
still `Prospecting`, only refreshes `last_seen` and sets the status to
`Updated`: whichever branch the confidence comparison takes, it writes
back the values already stored. -/
theorem update_existing_rediscovery (e : Entry) (icp : ICPScore) (c : String) (n : ℕ)
    (hconf : e.confidence = some (pyRound1 (icp.confidence * 100)))
    (hfit : e.fit_level = some icp.fit_level)
    (hcamp : e.campaign = c)
    (hstat : e.status = some "Prospecting") :
    update_existing_job e icp c n = { e with last_seen := some n, status := some "Updated" } := by
  obtain ⟨title, urlf, budget, camp, dadd, stat, conf, fit, ind, lseen⟩ := e
  simp only at hconf hfit hcamp hstat
  subst hconf hfit hcamp hstat
  by_cases hcond : pyRound1 (icp.confidence * 100) = 0 ∨
      pyRound1 (icp.confidence * 100) < icp.confidence
  · simp [update_existing_job, hcond]
  · simp [update_existing_job, hcond]

/-- C2 amended: upserting the same `(identity, listing, score)` twice
(under the same campaign) yields exactly one stored entry; the second
upsert refreshes `last_seen` and moves the status to `Updated`, and
every other field — title, URL, budget, campaign, confidence, fit
level, industry match, date added — is exactly as after the first
upsert, as the record-update form of the resulting entry shows. -/
theorem C2_idempotent_amended (store : List (String × Entry)) (job : Job) (icp : ICPScore)
    (campaign : String) (t1 t2 : ℕ) (h : findEntry store job.url = none) :
    ∃ e1,
      findEntry (log_job_opportunity store job icp campaign t1) job.url = some e1 ∧
      findEntry (log_job_opportunity (log_job_opportunity store job icp campaign t1)
          job icp campaign t2) job.url
        = some { e1 with last_seen := some t2, status := some "Updated" } ∧
      ((log_job_opportunity (log_job_opportunity store job icp campaign t1)
          job icp campaign t2).map Prod.fst).count job.url = 1 := by
  have hs1 : log_job_opportunity store job icp campaign t1
      = store ++ [(job.url, create_new_job job icp campaign t1)] := by
    rw [log_job_opportunity, h]
  have hf1 : findEntry (store ++ [(job.url, create_new_job job icp campaign t1)]) job.url
      = some (create_new_job job icp campaign t1) := by
    rw [findEntry_append_none store _ job.url h, findEntry, if_pos rfl]
  have hupd : update_existing_job (create_new_job job icp campaign t1) icp campaign t2
      = { create_new_job job icp campaign t1 with
          last_seen := some t2, status := some "Updated" } :=
    update_existing_rediscovery (create_new_job job icp campaign t1) icp campaign t2
      rfl rfl rfl rfl
  have hs2 : log_job_opportunity (log_job_opportunity store job icp campaign t1)
        job icp campaign t2
      = setFirst (store ++ [(job.url, create_new_job job icp campaign t1)]) job.url
          (update_existing_job (create_new_job job icp campaign t1) icp campaign t2) := by
    rw [hs1, log_job_opportunity]
    simp only [hf1]
  refine ⟨create_new_job job icp campaign t1, ?_, ?_, ?_⟩
  · rw [hs1]
    exact hf1
  · rw [hs2, hupd]
    exact findEntry_setFirst_self _ _ _ _ hf1
  · rw [hs2, map_fst_setFirst, List.map_append, List.count_append]
    have h0 : (store.map Prod.fst).count job.url = 0 :=
      List.count_eq_zero.mpr (findEntry_none_notmem store job.url h)
    rw [h0]
    simp

/-- C2 witness: the amended idempotent-upsert law at a concrete store. -/
theorem C2_idempotent_witness :
    ∃ e1,
      findEntry (log_job_opportunity [] sampleJob sampleIcp "c" 0) sampleJob.url = some e1 ∧
      findEntry (log_job_opportunity (log_job_opportunity [] sampleJob sampleIcp "c" 0)
          sampleJob sampleIcp "c" 1) sampleJob.url
        = some { e1 with last_seen := some 1, status := some "Updated" } ∧
      ((log_job_opportunity (log_job_opportunity [] sampleJob sampleIcp "c" 0)
          sampleJob sampleIcp "c" 1).map Prod.fst).count sampleJob.url = 1 :=
  C2_idempotent_amended [] sampleJob sampleIcp "c" 0 1 rfl

unseal Rat.add Rat.mul Rat.sub in
/-- C1: the stored confidence is NOT the maximum of the submitted
confidences.  The store writes confidences on a 0–100 scale but the
merge compares the raw 0–1 confidence against the stored 0–100 value,
so after submitting confidences 0.5 then 0.9 the entry still holds 50.0
even though the maximum corresponds to 90.0. -/
theorem C1_confidence_not_max :
    (findEntry
        (log_job_opportunity
          (log_job_opportunity [] sampleJob sampleIcp "c1" 0)
          sampleJob sampleIcpBetter "c2" 1)
        sampleJob.url).map Entry.confidence = some (some 50) ∧
    pyRound1 (sampleIcpBetter.confidence * 100) = 90 ∧
    (50 : ℚ) ≠ 90 := by
  decide

/-- If nothing in the remaining catalog beats the running best, the
selection loop keeps its accumulator. -/
theorem scanBest_le (job : Job) (jt : String) (l : List (String × Profile)) :
    ∀ acc : Option (String × Profile) × ℚ,
      (∀ np ∈ l, calculate_profile_score job jt np.2 ≤ acc.2) →
      scanBest job jt l acc = acc := by
  induction l with
  | nil => intro acc _; rfl
  | cons np rest ih =>
    intro acc hle
    show scanBest job jt rest
        (if acc.2 < calculate_profile_score job jt np.2 then
          (some np, calculate_profile_score job jt np.2) else acc) = acc
    rw [if_neg (not_lt.mpr (hle np (List.mem_cons_self np rest)))]
    exact ih acc (fun x hx => hle x (List.mem_cons_of_mem np hx))

/-- The selection loop lands on the first index attaining the strict
maximum, provided that score beats the accumulator. -/
theorem scanBest_first_max (job : Job) (jt : String) :
    ∀ (l : List (String × Profile)) (acc : Option (String × Profile) × ℚ) (i : ℕ)
      (hi : i < l.length),
      acc.2 < calculate_profile_score job jt (l.get ⟨i, hi⟩).2 →
      (∀ j (hj : j < l.length), j < i →
        calculate_profile_score job jt (l.get ⟨j, hj⟩).2 <
          calculate_profile_score job jt (l.get ⟨i, hi⟩).2) →
      (∀ j (hj : j < l.length),
        calculate_profile_score job jt (l.get ⟨j, hj⟩).2 ≤
          calculate_profile_score job jt (l.get ⟨i, hi⟩).2) →
      scanBest job jt l acc =
        (some (l.get ⟨i, hi⟩), calculate_profile_score job jt (l.get ⟨i, hi⟩).2) := by
  intro l
  induction l with
  | nil =>
    intro acc i hi
    exact absurd hi (by simp)
  | cons np rest ih =>
    intro acc i hi hacc hmono hle
    match i with
    | 0 =>
      have hacc0 : acc.2 < calculate_profile_score job jt np.2 := hacc
      show scanBest job jt rest
          (if acc.2 < calculate_profile_score job jt np.2 then
            (some np, calculate_profile_score job jt np.2) else acc)
        = (some np, calculate_profile_score job jt np.2)
      rw [if_pos hacc0]
      refine scanBest_le job jt rest _ ?_
      intro x hx
      obtain ⟨⟨j, hj⟩, hget⟩ := List.mem_iff_get.mp hx
      have h : calculate_profile_score job jt (rest.get ⟨j, hj⟩).2 ≤
          calculate_profile_score job jt np.2 := hle (j + 1) (Nat.succ_lt_succ hj)
      rw [hget] at h
      exact h
    | k + 1 =>
      have hk : k < rest.length := Nat.lt_of_succ_lt_succ hi
      have hacck : acc.2 < calculate_profile_score job jt (rest.get ⟨k, hk⟩).2 := hacc
      have hnp : calculate_profile_score job jt np.2 <
          calculate_profile_score job jt (rest.get ⟨k, hk⟩).2 :=
        hmono 0 (Nat.succ_pos _) (Nat.succ_pos _)
      have hmono2 : ∀ j (hj : j < rest.length), j < k →
          calculate_profile_score job jt (rest.get ⟨j, hj⟩).2 <
            calculate_profile_score job jt (rest.get ⟨k, hk⟩).2 :=
        fun j hj hjk => hmono (j + 1) (Nat.succ_lt_succ hj) (Nat.succ_lt_succ hjk)
      have hle2 : ∀ j (hj : j < rest.length),
          calculate_profile_score job jt (rest.get ⟨j, hj⟩).2 ≤
            calculate_profile_score job jt (rest.get ⟨k, hk⟩).2 :=
        fun j hj => hle (j + 1) (Nat.succ_lt_succ hj)
      show scanBest job jt rest
          (if acc.2 < calculate_profile_score job jt np.2 then
            (some np, calculate_profile_score job jt np.2) else acc)
        = (some (rest.get ⟨k, hk⟩), calculate_profile_score job jt (rest.get ⟨k, hk⟩).2)
      by_cases hcs : acc.2 < calculate_profile_score job jt np.2
      · rw [if_pos hcs]
        exact ih (some np, calculate_profile_score job jt np.2) k hk hnp hmono2 hle2
      · rw [if_neg hcs]
        exact ih acc k hk hacck hmono2 hle2

/-- C5: the scorer computes a score for each profile in catalog order
and selects the strictly greatest one, ties going to the earliest
profile — formally, whenever index `i` is the first to attain the
maximum and its score is positive, `best_profile` is that profile's
name; and when the catalog is empty or no profile scores above 0, the
best profile is reported as `No strong match` and the fit tier is
`Low`. -/
theorem C5_best_match (catalog : List (String × Profile)) (job : Job) :
    ((∀ np ∈ catalog, calculate_profile_score job (jobText job) np.2 ≤ 0) →
      (score_job catalog job).industry_match = "No strong match" ∧
      (score_job catalog job).fit_level = "Low") ∧
    (∀ i (hi : i < catalog.length),
      0 < calculate_profile_score job (jobText job) (catalog.get ⟨i, hi⟩).2 →
      (∀ j (hj : j < catalog.length), j < i →
        calculate_profile_score job (jobText job) (catalog.get ⟨j, hj⟩).2 <
          calculate_profile_score job (jobText job) (catalog.get ⟨i, hi⟩).2) →
      (∀ j (hj : j < catalog.length),
        calculate_profile_score job (jobText job) (catalog.get ⟨j, hj⟩).2 ≤
          calculate_profile_score job (jobText job) (catalog.get ⟨i, hi⟩).2) →
      (score_job catalog job).industry_match = (catalog.get ⟨i, hi⟩).1) := by
  constructor
  · intro hall
    have hscan : scanBest job (jobText job) catalog (none, 0) = (none, 0) :=
      scanBest_le job (jobText job) catalog (none, 0) hall
    constructor
    · show (match (scanBest job (jobText job) catalog (none, 0)).1 with
        | some np => np.1
        | none => "No strong match") = "No strong match"
      rw [hscan]
    · show fitLevel (scanBest job (jobText job) catalog (none, 0)).2 = "Low"
      rw [hscan]
      decide
  · intro i hi hpos hmono hle
    have hscan := scanBest_first_max job (jobText job) catalog (none, 0) i hi hpos hmono hle
    show (match (scanBest job (jobText job) catalog (none, 0)).1 with
      | some np => np.1
      | none => "No strong match") = (catalog.get ⟨i, hi⟩).1
    rw [hscan]

unseal Rat.add Rat.mul Rat.sub in
/-- C5 witness: on a two-profile catalog where the second profile scores
strictly higher (2 against 1.5), the scorer picks the second profile. -/
theorem C5_best_match_witness :
    (score_job [("a", profA), ("b", profB)] wJob).industry_match = "b" :=
  (C5_best_match [("a", profA), ("b", profB)] wJob).2 1 (by decide) (by decide)
    (by decide) (by decide)
